import Mathlib

/-!
Shallow embedding of the chat-relay server in src/server.py.

Modelling conventions:
- A connection (a Python socket object) is identified by a natural number;
  the code compares sockets by identity, which coincides with id equality
  since every accepted socket is a distinct object.
- A byte payload is modelled by its decoded text, a list of characters:
  the server decodes every received chunk with errors replaced
  (decode with replacement is total, it never raises), so every byte
  payload corresponds to exactly one text.
- A queue item is an optional payload, matching the Python queues whose
  items are either message bytes or the close sentinel None.
- The clients dict is an association list from connection id to record;
  each per-client send queue is kept in a separate association list
  because in the code the queue object outlives its dict entry (the
  sender thread still holds it after clients.pop).
-/

namespace ChatServer

abbrev Conn := Nat

abbrev Payload := List Char

abbrev QItem := Option Payload

abbrev Queues := List (Conn × List QItem)

/-- A registry record: the value stored in the clients dict (name and
peer address; the queue is kept in the separate queue table). -/
structure ClientRecord where
  name : List Char
  addr : Nat
  deriving DecidableEq

/-- The server state visible to the claims: the clients dict, the
per-client send queues, the shutting_down event, whether the listening
socket has been closed, and the set of client sockets already closed. -/
structure ServerState where
  reg : List (Conn × ClientRecord)
  queues : Queues
  shuttingDown : Bool
  listenerClosed : Bool
  closed : List Conn
  deriving DecidableEq

/-- Reads a client's queue contents (empty if the connection has no
queue yet). -/
def getQ : Queues → Conn → List QItem
  | [], _ => []
  | (a, q) :: rest, c => if a = c then q else getQ rest c

/-- Enqueue (queue.Queue.put) one item at the tail of a client's queue,
creating the queue if the connection has none yet. -/
def enqQ (c : Conn) (it : QItem) : Queues → Queues
  | [] => [(c, [it])]
  | (a, q) :: rest => if a = c then (a, q ++ [it]) :: rest else (a, q) :: enqQ c it rest

/-- Dequeue (queue.Queue.get) one item from the head of a client's
queue, as performed by that client's sender thread. -/
def popQ (c : Conn) : Queues → Queues
  | [] => []
  | (a, q) :: rest => if a = c then (a, q.tail) :: rest else (a, q) :: popQ c rest

/-- Model of safe_close (src/server.py lines 23-32): shutdown and close
with every exception swallowed, so closing an already-closed socket is
harmless and the set of closed sockets only grows. -/
def safe_close (c : Conn) (s : ServerState) : ServerState :=
  { s with closed := if c ∈ s.closed then s.closed else s.closed ++ [c] }

/-- Model of shutting_down.set() (threading.Event.set): raises the flag,
never lowers it. -/
def setShutdown (s : ServerState) : ServerState :=
  { s with shuttingDown := true }

/-- The snapshot taken by broadcast under the clients lock (src/server.py
lines 67-70): all keys of the clients dict other than exclude_sock (the
code compares with object identity, modelled by id equality). -/
def bcast_targets (exclude_sock : Option Conn) (s : ServerState) : List Conn :=
  (s.reg.map Prod.fst).filter (fun c => !(decide (exclude_sock = some c)))

/-- Model of broadcast (src/server.py lines 62-78): under the clients
lock, snapshot the keys of the clients dict other than exclude_sock and
their queues, then put msg into each snapshotted queue. -/
def broadcast (msg : Payload) (exclude_sock : Option Conn) (s : ServerState) : ServerState :=
  { s with queues := (bcast_targets exclude_sock s).foldl (fun qs c => enqQ c (some msg) qs) s.queues }

/-- Model of the inline dict pop in handle_client (src/server.py lines
144-148): remove the entry for the key and return it, or signal absence.
Keys of a Python dict are unique, so removing the first binding is
exactly dict.pop. -/
def deregister : List (Conn × ClientRecord) → Conn → List (Conn × ClientRecord) × Option ClientRecord
  | [], _ => ([], none)
  | (a, r) :: rest, c =>
    if a = c then (rest, some r)
    else
      let p := deregister rest c
      ((a, r) :: p.1, p.2)

/-- Python str.strip(): drop leading and trailing whitespace. -/
def strip (t : List Char) : List Char :=
  ((t.dropWhile Char.isWhitespace).reverse.dropWhile Char.isWhitespace).reverse

/-- Python text.endswith of a line feed (src/server.py line 132). -/
def endswith_nl (t : List Char) : Bool :=
  t.getLast? = some '\n'

/-- Normalization in handle_client lines 131-133: append a line feed
unless the text already ends with one. -/
def normalize_text (t : List Char) : List Char :=
  if endswith_nl t then t else t ++ ['\n']

/-- The chat line broadcast for a message (line 135): the f-string
interpolation of the name and the normalized text. -/
def chat_payload (name t : List Char) : List Char :=
  name ++ (": ".data) ++ normalize_text t

/-- The join notice broadcast at line 110. -/
def join_notice (name : List Char) : List Char :=
  (" ".data) ++ name ++ (" se unió al chat.\n".data)

/-- The leave notice broadcast at line 151. -/
def leave_notice (name : List Char) : List Char :=
  (" ".data) ++ name ++ (" abandonó el chat.\n".data)

/-- The display name computed at line 99: strip the decoded handshake
payload, and fall back to the default on an empty result. -/
def handshake_name (data : List Char) : List Char :=
  if strip data = [] then "Anon".data else strip data

/-- The state with a client popped from the clients dict (the queue
table is untouched: the queue object survives the pop). -/
def remove_client (c : Conn) (s : ServerState) : ServerState :=
  { s with reg := (deregister s.reg c).1 }

/-- The state with the None close sentinel put into one client's queue. -/
def enq_sentinel (c : Conn) (s : ServerState) : ServerState :=
  { s with queues := enqQ c none s.queues }

/-- The display name used by the leave notice (src/server.py lines
144-148): the popped record's name if the socket was registered, else
the handshake name if one was read, else the default. -/
def left_name (popped : Option ClientRecord) (nameOpt : Option (List Char)) : List Char :=
  match popped with
  | some r => r.name
  | none => nameOpt.getD ("Desconocido".data)

/-- Model of the finally block of handle_client (src/server.py lines
141-162): pop the client from the dict if present (else fall back to the
local name, or to the default when the handshake never produced one),
broadcast the leave notice excluding this socket, put the None sentinel
into this client's own send queue, and safe_close the socket. -/
def handle_client_finally (c : Conn) (nameOpt : Option (List Char)) (s : ServerState) : ServerState :=
  safe_close c
    (enq_sentinel c
      (broadcast (leave_notice (left_name (deregister s.reg c).2 nameOpt)) (some c)
        (remove_client c s)))

/-- Model of a handshake failure in handle_client (empty read at lines
96-98, or a timeout raising into the handler at lines 137-139): the
socket is closed and control reaches the finally block with no name set
and no registration ever performed. -/
def handshake_failure_run (c : Conn) (s : ServerState) : ServerState :=
  handle_client_finally c none (safe_close c s)

/-- The registration at src/server.py lines 101-103: insert a new entry
into the clients dict, together with the fresh empty send queue created
at line 90. -/
def register_client (c : Conn) (rec : ClientRecord) (s : ServerState) : ServerState :=
  { s with reg := s.reg ++ [(c, rec)], queues := s.queues ++ [(c, [])] }

/-- Model of the handshake portion of handle_client (src/server.py lines
92-110): on an empty read the failure path runs; otherwise the stripped
name (default Anon) is computed, the client is inserted into the clients
dict with a fresh empty send queue, and the join notice is broadcast
excluding the new socket. -/
def handle_handshake (c : Conn) (a : Nat) (data : List Char) (s : ServerState) : ServerState :=
  if data = [] then handshake_failure_run c s
  else
    broadcast (join_notice (handshake_name data)) (some c)
      (register_client c ⟨handshake_name data, a⟩ s)

/-- Model of one iteration of the receive loop for a chat chunk
(src/server.py lines 127-135): decode, normalize the line terminator,
and broadcast the formatted chat line excluding the sender. -/
def handle_chat (c : Conn) (name t : List Char) (s : ServerState) : ServerState :=
  broadcast (chat_payload name t) (some c) s

/-- How a run of sender_thread_func ended. -/
inductive SenderExit where
  | sentinelStop
  | writeFail
  | queueEnd
  deriving DecidableEq

/-- Model of sender_thread_func (src/server.py lines 35-59) applied to
the stream of items the queue will yield: a None item breaks the loop
without being written; a payload is written when sendall succeeds
(writeOk) and the loop continues; a failed sendall breaks the loop. The
result is the list of payloads actually written and the exit cause
(queueEnd marks the end of the modelled item stream, where the real
thread would block waiting for more). -/
def sender_thread_func (writeOk : Payload → Bool) : List QItem → List Payload × SenderExit
  | [] => ([], SenderExit.queueEnd)
  | none :: _ => ([], SenderExit.sentinelStop)
  | some m :: rest =>
    if writeOk m then
      let p := sender_thread_func writeOk rest
      (m :: p.1, p.2)
    else ([], SenderExit.writeFail)

/-- The effect of one sender-thread queue.get on the shared state: the
sender thread only consumes from its own queue; it touches neither the
clients dict nor any other queue. -/
def sender_pop (c : Conn) (s : ServerState) : ServerState :=
  { s with queues := popQ c s.queues }

/-- One iteration of the per-client shutdown loop in main (src/server.py
lines 190-198): put the None sentinel into the client's queue if the
socket is still a key of the clients dict (it is not removed here), then
safe_close the socket. -/
def shutdown_client_step (st : ServerState) (c : Conn) : ServerState :=
  safe_close c (if c ∈ st.reg.map Prod.fst then enq_sentinel c st else st)

/-- The observable events of the shutdown sequence in main. -/
inductive SEvent where
  | sentEnq (c : Conn)
  | closeConn (c : Conn)
  | closeListener
  | joinAll
  | clearRegistry
  deriving DecidableEq

/-- Model of the finally block of main (src/server.py lines 185-212):
snapshot the clients dict keys; for each, enqueue the sentinel then
close its socket; close the listening socket; join the spawned threads
with a bounded timeout (no modelled state change); clear the clients
dict. Returns the final state and the ordered event trace. -/
def main_shutdown (s : ServerState) : ServerState × List SEvent :=
  let socks := s.reg.map Prod.fst
  let s1 := socks.foldl shutdown_client_step s
  let s2 := { s1 with listenerClosed := true }
  let s3 := { s2 with reg := [] }
  (s3, (socks.flatMap fun c => [SEvent.sentEnq c, SEvent.closeConn c])
        ++ [SEvent.closeListener, SEvent.joinAll, SEvent.clearRegistry])

/-- Model of one accept attempt in main (src/server.py lines 168-180):
once the listening socket is closed, accept raises OSError and the loop
breaks, so no connection is produced; otherwise the pending connection
is accepted. -/
def accept_step (st : ServerState) (c : Conn) : Option Conn :=
  if st.listenerClosed then none else some c

/-- A sequence of broadcast calls applied in order. -/
def apply_broadcasts (ops : List (Payload × Option Conn)) (s : ServerState) : ServerState :=
  ops.foldl (fun st op => broadcast op.1 op.2 st) s

/-- The operations of the server that can run as steps of an execution:
every state change in src/server.py is one of these. -/
inductive Step : ServerState → ServerState → Prop where
  | bcast {s : ServerState} (p : Payload) (e : Option Conn) : Step s (broadcast p e s)
  | handshake {s : ServerState} (c : Conn) (a : Nat) (d : List Char) :
      Step s (handle_handshake c a d s)
  | chat {s : ServerState} (c : Conn) (nm t : List Char) : Step s (handle_chat c nm t s)
  | cleanup {s : ServerState} (c : Conn) (nm : Option (List Char)) :
      Step s (handle_client_finally c nm s)
  | hsFail {s : ServerState} (c : Conn) : Step s (handshake_failure_run c s)
  | shutdownClient {s : ServerState} (c : Conn) : Step s (shutdown_client_step s c)
  | shutdownAll {s : ServerState} : Step s (main_shutdown s).1
  | setSig {s : ServerState} : Step s (setShutdown s)
  | close {s : ServerState} (c : Conn) : Step s (safe_close c s)
  | senderGet {s : ServerState} (c : Conn) : Step s (sender_pop c s)

/-! Helper lemmas about the queue table. -/

theorem getQ_enqQ_self (c : Conn) (it : QItem) (qs : Queues) :
    getQ (enqQ c it qs) c = getQ qs c ++ [it] := by
  induction qs with
  | nil => simp [getQ, enqQ]
  | cons p rest ih =>
    obtain ⟨a, q⟩ := p
    by_cases h : a = c
    · simp [getQ, enqQ, h]
    · simp [getQ, enqQ, h, ih]

theorem getQ_enqQ_ne (c c' : Conn) (it : QItem) (qs : Queues) (h : c' ≠ c) :
    getQ (enqQ c it qs) c' = getQ qs c' := by
  induction qs with
  | nil => simp [getQ, enqQ, Ne.symm h]
  | cons p rest ih =>
    obtain ⟨a, q⟩ := p
    by_cases hac : a = c
    · subst hac
      simp [getQ, enqQ, Ne.symm h]
    · by_cases hac' : a = c'
      · simp [getQ, enqQ, hac, hac', h]
      · simp [getQ, enqQ, hac, hac', ih]

theorem getQ_popQ_ne (c c' : Conn) (qs : Queues) (h : c' ≠ c) :
    getQ (popQ c qs) c' = getQ qs c' := by
  induction qs with
  | nil => simp [getQ, popQ]
  | cons p rest ih =>
    obtain ⟨a, q⟩ := p
    by_cases hac : a = c
    · subst hac
      simp [getQ, popQ, Ne.symm h]
    · by_cases hac' : a = c'
      · simp [getQ, popQ, hac, hac', h]
      · simp [getQ, popQ, hac, hac', ih]

theorem getQ_append_single_ne (c c' : Conn) (x : List QItem) (qs : Queues) (h : c' ≠ c) :
    getQ (qs ++ [(c, x)]) c' = getQ qs c' := by
  induction qs with
  | nil => simp [getQ, Ne.symm h]
  | cons p rest ih =>
    obtain ⟨a, q⟩ := p
    by_cases hac' : a = c'
    · simp [getQ, hac']
    · simp [getQ, hac', ih]

theorem getQ_append_single_self (c : Conn) (x : List QItem) (qs : Queues)
    (h : c ∉ qs.map Prod.fst) :
    getQ (qs ++ [(c, x)]) c = x := by
  induction qs with
  | nil => simp [getQ]
  | cons p rest ih =>
    obtain ⟨a, q⟩ := p
    simp only [List.map_cons, List.mem_cons] at h
    push_neg at h
    simp [getQ, Ne.symm h.1, ih h.2]

theorem foldl_enqQ_not_mem (it : QItem) (ts : List Conn) (qs : Queues) (c : Conn) :
    c ∉ ts → getQ (ts.foldl (fun a x => enqQ x it a) qs) c = getQ qs c := by
  induction ts generalizing qs with
  | nil => intro _; simp
  | cons t rest ih =>
    intro h
    simp only [List.mem_cons] at h
    push_neg at h
    simp only [List.foldl_cons]
    rw [ih (enqQ t it qs) h.2, getQ_enqQ_ne t c it qs h.1]

theorem foldl_enqQ_mem (it : QItem) (ts : List Conn) (qs : Queues) (c : Conn) :
    ts.Nodup → c ∈ ts → getQ (ts.foldl (fun a x => enqQ x it a) qs) c = getQ qs c ++ [it] := by
  induction ts generalizing qs with
  | nil => intro _ h; cases h
  | cons t rest ih =>
    intro hnd h
    obtain ⟨hnotin, hndr⟩ := List.nodup_cons.mp hnd
    simp only [List.foldl_cons]
    rcases List.mem_cons.mp h with he | hm
    · subst he
      rw [foldl_enqQ_not_mem it rest (enqQ c it qs) c hnotin, getQ_enqQ_self]
    · have hct : c ≠ t := fun e => hnotin (e ▸ hm)
      rw [ih (enqQ t it qs) hndr hm, getQ_enqQ_ne t c it qs hct]

/-! Helper lemmas about broadcast. -/

theorem broadcast_reg (p : Payload) (e : Option Conn) (s : ServerState) :
    (broadcast p e s).reg = s.reg := rfl

theorem broadcast_flags (p : Payload) (e : Option Conn) (s : ServerState) :
    (broadcast p e s).shuttingDown = s.shuttingDown
    ∧ (broadcast p e s).listenerClosed = s.listenerClosed
    ∧ (broadcast p e s).closed = s.closed := ⟨rfl, rfl, rfl⟩

theorem mem_bcast_targets (e : Option Conn) (s : ServerState) (c : Conn) :
    c ∈ bcast_targets e s ↔ c ∈ s.reg.map Prod.fst ∧ e ≠ some c := by
  simp [bcast_targets, List.mem_filter]

theorem bcast_targets_nodup (e : Option Conn) (s : ServerState)
    (h : (s.reg.map Prod.fst).Nodup) : (bcast_targets e s).Nodup :=
  h.filter _

theorem broadcast_getQ_target (p : Payload) (e : Option Conn) (s : ServerState) (c : Conn)
    (hnd : (s.reg.map Prod.fst).Nodup) (hc : c ∈ s.reg.map Prod.fst) (he : e ≠ some c) :
    getQ (broadcast p e s).queues c = getQ s.queues c ++ [some p] := by
  have hm : c ∈ bcast_targets e s := (mem_bcast_targets e s c).mpr ⟨hc, he⟩
  exact foldl_enqQ_mem (some p) (bcast_targets e s) s.queues c (bcast_targets_nodup e s hnd) hm

theorem broadcast_getQ_skip (p : Payload) (e : Option Conn) (s : ServerState) (c : Conn)
    (h : c ∉ s.reg.map Prod.fst ∨ e = some c) :
    getQ (broadcast p e s).queues c = getQ s.queues c := by
  have hm : c ∉ bcast_targets e s := by
    intro hmem
    rcases (mem_bcast_targets e s c).mp hmem with ⟨h1, h2⟩
    rcases h with h | h
    · exact h h1
    · exact h2 h
  exact foldl_enqQ_not_mem (some p) (bcast_targets e s) s.queues c hm

/-! Helper lemmas about deregister. -/

theorem deregister_absent (reg : List (Conn × ClientRecord)) (c : Conn) :
    c ∉ reg.map Prod.fst → deregister reg c = (reg, none) := by
  induction reg with
  | nil => intro _; rfl
  | cons p rest ih =>
    intro h
    obtain ⟨a, r⟩ := p
    simp only [List.map_cons, List.mem_cons] at h
    push_neg at h
    simp [deregister, Ne.symm h.1, ih h.2]

theorem deregister_not_mem_self (reg : List (Conn × ClientRecord)) (c : Conn) :
    (reg.map Prod.fst).Nodup → c ∉ (deregister reg c).1.map Prod.fst := by
  induction reg with
  | nil => intro _ h; simp [deregister] at h
  | cons p rest ih =>
    intro hnd
    obtain ⟨a, r⟩ := p
    simp only [List.map_cons, List.nodup_cons] at hnd
    by_cases hac : a = c
    · subst hac
      simp only [deregister, if_pos rfl]
      exact hnd.1
    · intro hmem
      simp only [deregister, if_neg hac, List.map_cons, List.mem_cons] at hmem
      rcases hmem with he | hm
      · exact hac he.symm
      · exact ih hnd.2 hm

/-! Helper lemmas about safe_close and the small state updates. -/

theorem safe_close_reg (c : Conn) (s : ServerState) : (safe_close c s).reg = s.reg := rfl

theorem safe_close_queues (c : Conn) (s : ServerState) : (safe_close c s).queues = s.queues := rfl

theorem safe_close_closed_self (c : Conn) (s : ServerState) : c ∈ (safe_close c s).closed := by
  by_cases h : c ∈ s.closed <;> simp [safe_close, h]

theorem safe_close_closed_mono (c x : Conn) (s : ServerState) :
    x ∈ s.closed → x ∈ (safe_close c s).closed := by
  intro hx
  by_cases h : c ∈ s.closed <;> simp [safe_close, h, hx]

theorem register_client_keys (c : Conn) (rec : ClientRecord) (s : ServerState) :
    (register_client c rec s).reg.map Prod.fst = s.reg.map Prod.fst ++ [c] := by
  simp [register_client]

theorem nodup_append_singleton {l : List Conn} {c : Conn} (h : l.Nodup) (hc : c ∉ l) :
    (l ++ [c]).Nodup := by
  simp [List.nodup_append, h, hc]

/-! Helper lemmas about shutdown_client_step and its fold in main. -/

theorem scs_reg (st : ServerState) (c : Conn) : (shutdown_client_step st c).reg = st.reg := by
  by_cases h : c ∈ st.reg.map Prod.fst <;>
    simp [shutdown_client_step, safe_close, enq_sentinel, h]

theorem scs_shutting (st : ServerState) (c : Conn) :
    (shutdown_client_step st c).shuttingDown = st.shuttingDown := by
  by_cases h : c ∈ st.reg.map Prod.fst <;>
    simp [shutdown_client_step, safe_close, enq_sentinel, h]

theorem scs_listener (st : ServerState) (c : Conn) :
    (shutdown_client_step st c).listenerClosed = st.listenerClosed := by
  by_cases h : c ∈ st.reg.map Prod.fst <;>
    simp [shutdown_client_step, safe_close, enq_sentinel, h]

theorem scs_getQ_ne (st : ServerState) (c c' : Conn) (h : c' ≠ c) :
    getQ (shutdown_client_step st c).queues c' = getQ st.queues c' := by
  by_cases hm : c ∈ st.reg.map Prod.fst
  · simp only [shutdown_client_step, if_pos hm, safe_close_queues, enq_sentinel]
    exact getQ_enqQ_ne c c' none st.queues h
  · simp [shutdown_client_step, if_neg hm, safe_close_queues]

theorem scs_getQ_self (st : ServerState) (c : Conn) (h : c ∈ st.reg.map Prod.fst) :
    getQ (shutdown_client_step st c).queues c = getQ st.queues c ++ [none] := by
  simp only [shutdown_client_step, if_pos h, safe_close_queues, enq_sentinel]
  exact getQ_enqQ_self c none st.queues

theorem scs_closed_self (st : ServerState) (c : Conn) :
    c ∈ (shutdown_client_step st c).closed :=
  safe_close_closed_self c _

theorem scs_closed_mono (st : ServerState) (c x : Conn) :
    x ∈ st.closed → x ∈ (shutdown_client_step st c).closed := by
  intro hx
  by_cases h : c ∈ st.reg.map Prod.fst
  · simp only [shutdown_client_step, if_pos h]
    exact safe_close_closed_mono c x _ (by simpa [enq_sentinel] using hx)
  · simp only [shutdown_client_step, if_neg h]
    exact safe_close_closed_mono c x _ hx

theorem foldl_scs_reg (ts : List Conn) (st : ServerState) :
    (ts.foldl shutdown_client_step st).reg = st.reg := by
  induction ts generalizing st with
  | nil => rfl
  | cons t rest ih =>
    simp only [List.foldl_cons]
    rw [ih, scs_reg]

theorem foldl_scs_shutting (ts : List Conn) (st : ServerState) :
    (ts.foldl shutdown_client_step st).shuttingDown = st.shuttingDown := by
  induction ts generalizing st with
  | nil => rfl
  | cons t rest ih =>
    simp only [List.foldl_cons]
    rw [ih, scs_shutting]

theorem foldl_scs_getQ_not_mem (ts : List Conn) (st : ServerState) (c : Conn) :
    c ∉ ts → getQ (ts.foldl shutdown_client_step st).queues c = getQ st.queues c := by
  induction ts generalizing st with
  | nil => intro _; rfl
  | cons t rest ih =>
    intro h
    simp only [List.mem_cons] at h
    push_neg at h
    simp only [List.foldl_cons]
    rw [ih _ h.2, scs_getQ_ne st t c h.1]

theorem foldl_scs_getQ_mem (ts : List Conn) (st : ServerState) (c : Conn) :
    ts.Nodup → c ∈ ts → (∀ x ∈ ts, x ∈ st.reg.map Prod.fst) →
    getQ (ts.foldl shutdown_client_step st).queues c = getQ st.queues c ++ [none] := by
  induction ts generalizing st with
  | nil => intro _ h _; cases h
  | cons t rest ih =>
    intro hnd h hall
    obtain ⟨hnotin, hndr⟩ := List.nodup_cons.mp hnd
    simp only [List.foldl_cons]
    rcases List.mem_cons.mp h with he | hm
    · subst he
      rw [foldl_scs_getQ_not_mem rest _ c hnotin,
          scs_getQ_self st c (hall c (List.mem_cons_self c rest))]
    · have hct : c ≠ t := fun e => hnotin (e ▸ hm)
      rw [ih _ hndr hm ?_, scs_getQ_ne st t c hct]
      intro x hx
      rw [scs_reg]
      exact hall x (List.mem_cons_of_mem t hx)

theorem foldl_scs_closed_mono (ts : List Conn) (st : ServerState) (x : Conn) :
    x ∈ st.closed → x ∈ (ts.foldl shutdown_client_step st).closed := by
  induction ts generalizing st with
  | nil => intro h; exact h
  | cons t rest ih =>
    intro h
    simp only [List.foldl_cons]
    exact ih _ (scs_closed_mono st t x h)

theorem foldl_scs_closed_mem (ts : List Conn) (st : ServerState) (c : Conn) :
    c ∈ ts → c ∈ (ts.foldl shutdown_client_step st).closed := by
  induction ts generalizing st with
  | nil => intro h; cases h
  | cons t rest ih =>
    intro h
    simp only [List.foldl_cons]
    rcases List.mem_cons.mp h with he | hm
    · subst he
      exact foldl_scs_closed_mono rest _ c (scs_closed_self st c)
    · exact ih _ hm

/-! Preservation of the shutting_down flag by every operation. -/

theorem broadcast_shutting (p : Payload) (e : Option Conn) (s : ServerState) :
    (broadcast p e s).shuttingDown = s.shuttingDown := rfl

theorem handle_chat_shutting (c : Conn) (nm t : List Char) (s : ServerState) :
    (handle_chat c nm t s).shuttingDown = s.shuttingDown := rfl

theorem hcf_shutting (c : Conn) (nm : Option (List Char)) (s : ServerState) :
    (handle_client_finally c nm s).shuttingDown = s.shuttingDown := rfl

theorem hfr_shutting (c : Conn) (s : ServerState) :
    (handshake_failure_run c s).shuttingDown = s.shuttingDown := rfl

theorem handle_handshake_shutting (c : Conn) (a : Nat) (d : List Char) (s : ServerState) :
    (handle_handshake c a d s).shuttingDown = s.shuttingDown := by
  by_cases h : d = [] <;> simp [handle_handshake, h, hfr_shutting, broadcast_shutting,
    register_client]

theorem main_shutdown_shutting (s : ServerState) :
    (main_shutdown s).1.shuttingDown = s.shuttingDown := by
  simp only [main_shutdown]
  exact foldl_scs_shutting (s.reg.map Prod.fst) s

/-! Claim theorems. -/

/-- C10: the line-terminator normalization of handle_client always
yields text ending in a line feed, returns text already ending in one
unchanged (no duplicate terminator), and is therefore idempotent. -/
theorem normalize_text_idempotent (t : List Char) :
    endswith_nl (normalize_text t) = true
    ∧ (endswith_nl t = true → normalize_text t = t)
    ∧ normalize_text (normalize_text t) = normalize_text t := by
  have hcat : ∀ u : List Char, (u ++ ['\n']).getLast? = some '\n' := by
    intro u
    rw [List.getLast?_append_cons]
    rfl
  have h1 : ∀ u : List Char, endswith_nl (normalize_text u) = true := by
    intro u
    by_cases h : endswith_nl u = true
    · rw [normalize_text, if_pos h]
      exact h
    · rw [normalize_text, if_neg h]
      simp [endswith_nl, hcat u]
  have h2 : ∀ u : List Char, endswith_nl u = true → normalize_text u = u := by
    intro u h
    rw [normalize_text, if_pos h]
  exact ⟨h1 t, h2 t, h2 (normalize_text t) (h1 t)⟩

/-- Witness for C10 at concrete texts. -/
theorem normalize_text_idempotent_witness :
    endswith_nl (normalize_text ("hola".data)) = true
    ∧ normalize_text ("hola\n".data) = "hola\n".data :=
  ⟨(normalize_text_idempotent ("hola".data)).1,
   (normalize_text_idempotent ("hola\n".data)).2.1 (by decide)⟩

/-- C7: deregistering a connection absent from the clients dict is a
no-op that signals absence without fault and leaves the dict unchanged,
so cleanup paths may deregister the same connection twice safely. -/
theorem deregister_absent_idempotent (reg : List (Conn × ClientRecord)) (c : Conn) :
    (c ∉ reg.map Prod.fst → deregister reg c = (reg, none))
    ∧ ((reg.map Prod.fst).Nodup →
        deregister (deregister reg c).1 c = ((deregister reg c).1, none)) :=
  ⟨deregister_absent reg c,
   fun hnd => deregister_absent _ c (deregister_not_mem_self reg c hnd)⟩

/-- Witness for C7 at a concrete registry. -/
theorem deregister_absent_idempotent_witness :
    deregister [(1, (⟨"Ana".data, 0⟩ : ClientRecord))] 2
      = ([(1, (⟨"Ana".data, 0⟩ : ClientRecord))], none)
    ∧ deregister (deregister [(1, (⟨"Ana".data, 0⟩ : ClientRecord)),
        (2, (⟨"Leo".data, 0⟩ : ClientRecord))] 1).1 1
      = ((deregister [(1, (⟨"Ana".data, 0⟩ : ClientRecord)),
        (2, (⟨"Leo".data, 0⟩ : ClientRecord))] 1).1, none) :=
  ⟨(deregister_absent_idempotent [(1, (⟨"Ana".data, 0⟩ : ClientRecord))] 2).1 (by decide),
   (deregister_absent_idempotent [(1, (⟨"Ana".data, 0⟩ : ClientRecord)),
     (2, (⟨"Leo".data, 0⟩ : ClientRecord))] 1).2 (by decide)⟩

/-- C1: a broadcast call enqueues the payload onto the queue of every
client in the registry snapshot other than the excluded connection,
never onto the excluded connection's own queue, and touches no
unregistered queue. -/
theorem broadcast_enqueues_all_except_excluded (s : ServerState) (p : Payload)
    (e : Option Conn) (c : Conn) (hnd : (s.reg.map Prod.fst).Nodup) :
    (c ∈ s.reg.map Prod.fst → e ≠ some c →
        getQ (broadcast p e s).queues c = getQ s.queues c ++ [some p])
    ∧ (e = some c → getQ (broadcast p e s).queues c = getQ s.queues c)
    ∧ (c ∉ s.reg.map Prod.fst → getQ (broadcast p e s).queues c = getQ s.queues c) :=
  ⟨fun hc he => broadcast_getQ_target p e s c hnd hc he,
   fun he => broadcast_getQ_skip p e s c (Or.inr he),
   fun hc => broadcast_getQ_skip p e s c (Or.inl hc)⟩

/-- Witness for C1: two registered clients, one excluded sender. -/
theorem broadcast_enqueues_all_except_excluded_witness :
    getQ (broadcast ("hi\n".data) (some 1)
      { reg := [(1, ⟨"Ana".data, 0⟩), (2, ⟨"Leo".data, 0⟩)], queues := [(1, []), (2, [])],
        shuttingDown := false, listenerClosed := false, closed := [] }).queues 2
      = [some ("hi\n".data)]
    ∧ getQ (broadcast ("hi\n".data) (some 1)
      { reg := [(1, ⟨"Ana".data, 0⟩), (2, ⟨"Leo".data, 0⟩)], queues := [(1, []), (2, [])],
        shuttingDown := false, listenerClosed := false, closed := [] }).queues 1
      = [] :=
  ⟨((broadcast_enqueues_all_except_excluded
      { reg := [(1, ⟨"Ana".data, 0⟩), (2, ⟨"Leo".data, 0⟩)], queues := [(1, []), (2, [])],
        shuttingDown := false, listenerClosed := false, closed := [] }
      ("hi\n".data) (some 1) 2 (by decide)).1 (by decide) (by decide)).trans (by decide),
   ((broadcast_enqueues_all_except_excluded
      { reg := [(1, ⟨"Ana".data, 0⟩), (2, ⟨"Leo".data, 0⟩)], queues := [(1, []), (2, [])],
        shuttingDown := false, listenerClosed := false, closed := [] }
      ("hi\n".data) (some 1) 1 (by decide)).2.1 rfl).trans (by decide)⟩

/-- C6: in a sender run, every written item is a payload drawn from the
queue and successfully sent (the None sentinel is never written); a
queue stream without sentinel and without write failures is written out
in full, so no ordinary value terminates the loop; a write failure
terminates the run at once; and a sender dequeue mutates neither the
clients dict nor any other client's queue. -/
theorem sender_sentinel_sole_terminator (writeOk : Payload → Bool) (items : List QItem) :
    (∀ m ∈ (sender_thread_func writeOk items).1, some m ∈ items ∧ writeOk m = true)
    ∧ (none ∉ items → (∀ m : Payload, some m ∈ items → writeOk m = true) →
        sender_thread_func writeOk items = (items.filterMap id, SenderExit.queueEnd))
    ∧ (∀ (m : Payload) (rest : List QItem), writeOk m = false →
        sender_thread_func writeOk (some m :: rest) = ([], SenderExit.writeFail))
    ∧ (∀ (c : Conn) (s : ServerState),
        (sender_pop c s).reg = s.reg ∧ (sender_pop c s).shuttingDown = s.shuttingDown
        ∧ ∀ c' : Conn, c' ≠ c → getQ (sender_pop c s).queues c' = getQ s.queues c') := by
  refine ⟨?_, ?_, ?_, ?_⟩
  · induction items with
    | nil => intro m hm; simp [sender_thread_func] at hm
    | cons it rest ih =>
      intro m hm
      match it with
      | none => simp [sender_thread_func] at hm
      | some x =>
        by_cases hw : writeOk x
        · simp only [sender_thread_func, if_pos hw] at hm
          rcases List.mem_cons.mp hm with he | hmem
          · subst he
            exact ⟨List.mem_cons_self _ _, hw⟩
          · rcases ih m hmem with ⟨h1, h2⟩
            exact ⟨List.mem_cons_of_mem _ h1, h2⟩
        · simp [sender_thread_func, hw] at hm
  · induction items with
    | nil => intro _ _; rfl
    | cons it rest ih =>
      intro hn hall
      match it with
      | none => exact absurd (List.mem_cons_self _ _) hn
      | some x =>
        have hw : writeOk x = true := hall x (List.mem_cons_self _ _)
        have hn' : none ∉ rest := fun h => hn (List.mem_cons_of_mem _ h)
        have hall' : ∀ m : Payload, some m ∈ rest → writeOk m = true :=
          fun m hm => hall m (List.mem_cons_of_mem _ hm)
        simp [sender_thread_func, hw, ih hn' hall', List.filterMap_cons]
  · intro m rest h
    simp [sender_thread_func, h]
  · intro c s
    exact ⟨rfl, rfl, fun c' h => getQ_popQ_ne c c' s.queues h⟩

/-- Witness for C6 at a concrete queue stream and state. -/
theorem sender_sentinel_sole_terminator_witness :
    sender_thread_func (fun _ => true) [some ("a\n".data), some ("b\n".data)]
      = ([("a\n".data), ("b\n".data)], SenderExit.queueEnd)
    ∧ sender_thread_func (fun _ => false) [some ("a\n".data)]
      = ([], SenderExit.writeFail) :=
  ⟨(sender_sentinel_sole_terminator (fun _ => true)
      [some ("a\n".data), some ("b\n".data)]).2.1 (by decide) (fun m _ => rfl),
   (sender_sentinel_sole_terminator (fun _ => false) []).2.2.1 ("a\n".data) [] rfl⟩

/-- C2: a chat chunk from an Active client is decoded as text (decoding
with replacement is total, so every chunk yields a text), normalized to
end with a line terminator exactly when it does not already, and
broadcast as exactly the name-colon-space-text line excluding the
sender; in the concrete scenario the payload for Ana sending a normal
line is exactly the expected line. -/
theorem chat_message_broadcast_format (s : ServerState) (c : Conn) (nm t : List Char)
    (hnd : (s.reg.map Prod.fst).Nodup) :
    (∀ c', c' ∈ s.reg.map Prod.fst → c' ≠ c →
        getQ (handle_chat c nm t s).queues c'
          = getQ s.queues c' ++ [some (chat_payload nm t)])
    ∧ getQ (handle_chat c nm t s).queues c = getQ s.queues c
    ∧ chat_payload ("Ana".data) ("hola\n".data) = ("Ana: hola\n".data)
    ∧ (endswith_nl t = false → chat_payload nm t = nm ++ (": ".data) ++ t ++ ['\n'])
    ∧ (endswith_nl t = true → chat_payload nm t = nm ++ (": ".data) ++ t) := by
  refine ⟨?_, ?_, by decide, ?_, ?_⟩
  · intro c' hm hne
    exact broadcast_getQ_target _ (some c) s c' hnd hm
      (fun hEq => hne (Option.some.inj hEq).symm)
  · exact broadcast_getQ_skip _ (some c) s c (Or.inr rfl)
  · intro h
    simp [chat_payload, normalize_text, h, List.append_assoc]
  · intro h
    simp [chat_payload, normalize_text, h]

/-- Witness for C2: Ana (connection 1) sends a normal line; Leo
(connection 2) receives exactly the formatted line and Ana receives
nothing of her own message. -/
theorem chat_message_broadcast_format_witness :
    getQ (handle_chat 1 ("Ana".data) ("hola\n".data)
      { reg := [(1, ⟨"Ana".data, 0⟩), (2, ⟨"Leo".data, 0⟩)], queues := [(1, []), (2, [])],
        shuttingDown := false, listenerClosed := false, closed := [] }).queues 2
      = [some ("Ana: hola\n".data)]
    ∧ getQ (handle_chat 1 ("Ana".data) ("hola\n".data)
      { reg := [(1, ⟨"Ana".data, 0⟩), (2, ⟨"Leo".data, 0⟩)], queues := [(1, []), (2, [])],
        shuttingDown := false, listenerClosed := false, closed := [] }).queues 1
      = [] :=
  ⟨((chat_message_broadcast_format
      { reg := [(1, ⟨"Ana".data, 0⟩), (2, ⟨"Leo".data, 0⟩)], queues := [(1, []), (2, [])],
        shuttingDown := false, listenerClosed := false, closed := [] }
      1 ("Ana".data) ("hola\n".data) (by decide)).1 2 (by decide) (by decide)).trans (by decide),
   ((chat_message_broadcast_format
      { reg := [(1, ⟨"Ana".data, 0⟩), (2, ⟨"Leo".data, 0⟩)], queues := [(1, []), (2, [])],
        shuttingDown := false, listenerClosed := false, closed := [] }
      1 ("Ana".data) ("hola\n".data) (by decide)).2.1).trans (by decide)⟩

/-- C4: a handshake payload that is nonempty on the wire but trims to
the empty text is given the default name Anon, and the client still
becomes Active: it is registered, it receives later broadcasts from
other connections, and its own chat lines are broadcast to every other
registered client. A zero-length read is not an empty payload: over a
stream transport it denotes the peer closing, which is the
handshake-failure case. -/
theorem empty_name_defaults_to_anon_active (s : ServerState) (c : Conn) (a : Nat)
    (data : List Char) (hne : data ≠ []) (hstrip : strip data = [])
    (hfresh : c ∉ s.reg.map Prod.fst) (hnd : (s.reg.map Prod.fst).Nodup) :
    ((c, (⟨"Anon".data, a⟩ : ClientRecord)) ∈ (handle_handshake c a data s).reg)
    ∧ (∀ (p : Payload) (d : Conn), d ≠ c →
        getQ (broadcast p (some d) (handle_handshake c a data s)).queues c
          = getQ (handle_handshake c a data s).queues c ++ [some p])
    ∧ (∀ (t : List Char) (c' : Conn), c' ∈ s.reg.map Prod.fst → c' ≠ c →
        getQ (handle_chat c ("Anon".data) t (handle_handshake c a data s)).queues c'
          = getQ (handle_handshake c a data s).queues c'
              ++ [some (chat_payload ("Anon".data) t)]) := by
  have hreg : (handle_handshake c a data s).reg = s.reg ++ [(c, ⟨"Anon".data, a⟩)] := by
    simp only [handle_handshake, if_neg hne, broadcast_reg, register_client]
    simp [handshake_name, hstrip]
  have hkeys : (handle_handshake c a data s).reg.map Prod.fst = s.reg.map Prod.fst ++ [c] := by
    rw [hreg]
    simp
  have hnd' : ((handle_handshake c a data s).reg.map Prod.fst).Nodup := by
    rw [hkeys]
    exact nodup_append_singleton hnd hfresh
  have hcmem : c ∈ (handle_handshake c a data s).reg.map Prod.fst := by
    rw [hkeys]
    simp
  refine ⟨?_, ?_, ?_⟩
  · rw [hreg]
    simp
  · intro p d hd
    exact broadcast_getQ_target p (some d) _ c hnd' hcmem
      (fun hEq => hd (Option.some.inj hEq))
  · intro t c' hc' hne'
    have hc'mem : c' ∈ (handle_handshake c a data s).reg.map Prod.fst := by
      rw [hkeys]
      exact List.mem_append_left _ hc'
    exact broadcast_getQ_target _ (some c) _ c' hnd' hc'mem
      (fun hEq => hne' (Option.some.inj hEq).symm)

/-- Witness for C4: a whitespace-only handshake payload registers the
client as Anon and a later broadcast reaches its queue. -/
theorem empty_name_defaults_to_anon_active_witness :
    ((1, (⟨"Anon".data, 5⟩ : ClientRecord)) ∈ (handle_handshake 1 5 (" ".data)
      { reg := [(2, ⟨"Leo".data, 0⟩)], queues := [(2, [])],
        shuttingDown := false, listenerClosed := false, closed := [] }).reg)
    ∧ getQ (broadcast ("x\n".data) (some 2) (handle_handshake 1 5 (" ".data)
      { reg := [(2, ⟨"Leo".data, 0⟩)], queues := [(2, [])],
        shuttingDown := false, listenerClosed := false, closed := [] })).queues 1
      = [some ("x\n".data)] :=
  ⟨(empty_name_defaults_to_anon_active
      { reg := [(2, ⟨"Leo".data, 0⟩)], queues := [(2, [])],
        shuttingDown := false, listenerClosed := false, closed := [] }
      1 5 (" ".data) (by decide) (by decide) (by decide) (by decide)).1,
   ((empty_name_defaults_to_anon_active
      { reg := [(2, ⟨"Leo".data, 0⟩)], queues := [(2, [])],
        shuttingDown := false, listenerClosed := false, closed := [] }
      1 5 (" ".data) (by decide) (by decide) (by decide) (by decide)).2.1
      ("x\n".data) 2 (by decide)).trans (by decide)⟩

/-! Projection lemmas for the cleanup path. -/

theorem enq_sentinel_reg (c : Conn) (s : ServerState) : (enq_sentinel c s).reg = s.reg := rfl

theorem enq_sentinel_queues (c : Conn) (s : ServerState) :
    (enq_sentinel c s).queues = enqQ c none s.queues := rfl

theorem remove_client_reg (c : Conn) (s : ServerState) :
    (remove_client c s).reg = (deregister s.reg c).1 := rfl

theorem remove_client_queues (c : Conn) (s : ServerState) :
    (remove_client c s).queues = s.queues := rfl

theorem hcf_reg (c : Conn) (nm : Option (List Char)) (s : ServerState) :
    (handle_client_finally c nm s).reg = (deregister s.reg c).1 := rfl

theorem hcf_getQ_self (c : Conn) (nm : Option (List Char)) (s : ServerState) :
    getQ (handle_client_finally c nm s).queues c = getQ s.queues c ++ [none] := by
  simp only [handle_client_finally, safe_close_queues, enq_sentinel_queues]
  rw [getQ_enqQ_self, broadcast_getQ_skip _ _ _ _ (Or.inr rfl), remove_client_queues]

theorem apply_broadcasts_cons (op : Payload × Option Conn) (rest : List (Payload × Option Conn))
    (s : ServerState) :
    apply_broadcasts (op :: rest) s = apply_broadcasts rest (broadcast op.1 op.2 s) := rfl

theorem apply_broadcasts_getQ_unreg (ops : List (Payload × Option Conn)) (s : ServerState)
    (c : Conn) : c ∉ s.reg.map Prod.fst →
    getQ (apply_broadcasts ops s).queues c = getQ s.queues c := by
  induction ops generalizing s with
  | nil => intro _; rfl
  | cons op rest ih =>
    intro h
    rw [apply_broadcasts_cons, ih (broadcast op.1 op.2 s) (by rw [broadcast_reg]; exact h),
        broadcast_getQ_skip op.1 op.2 s c (Or.inl h)]

/-- Counterexample for C3: connection 3 fails its handshake (empty first
read) against a registry holding Ana and Leo; the cleanup path in the
finally block still broadcasts a leave notice for that connection,
naming the default, into every registered queue — so a leave notice IS
broadcast for a connection whose handshake failed, contrary to the
claim. -/
theorem handshake_failure_broadcasts_leave_notice_cex :
    getQ (handshake_failure_run 3
      { reg := [(1, ⟨"Ana".data, 0⟩), (2, ⟨"Leo".data, 0⟩)], queues := [(1, []), (2, [])],
        shuttingDown := false, listenerClosed := false, closed := [] }).queues 2
      = [some (" Desconocido abandonó el chat.\n".data)]
    ∧ getQ (handshake_failure_run 3
      { reg := [(1, ⟨"Ana".data, 0⟩), (2, ⟨"Leo".data, 0⟩)], queues := [(1, []), (2, [])],
        shuttingDown := false, listenerClosed := false, closed := [] }).queues 1
      = [some (" Desconocido abandonó el chat.\n".data)] := by
  decide

/-- C3 amended: on a handshake failure (timeout or empty read; a decode
fault cannot occur since decoding replaces invalid sequences) the
connection is closed and never enters the registry — the clients dict is
unchanged and no join notice is sent — but the shared cleanup path does
broadcast a leave notice naming the default Desconocido to every
registered client; the failed connection's own queue receives only the
close sentinel. -/
theorem handshake_failure_no_registration (s : ServerState) (c : Conn)
    (hfresh : c ∉ s.reg.map Prod.fst) (hnd : (s.reg.map Prod.fst).Nodup) :
    ((handshake_failure_run c s).reg = s.reg)
    ∧ (c ∈ (handshake_failure_run c s).closed)
    ∧ (getQ (handshake_failure_run c s).queues c = getQ s.queues c ++ [none])
    ∧ (∀ c', c' ∈ s.reg.map Prod.fst → c' ≠ c →
        getQ (handshake_failure_run c s).queues c'
          = getQ s.queues c' ++ [some (leave_notice ("Desconocido".data))]) := by
  have hfr : c ∉ (safe_close c s).reg.map Prod.fst := hfresh
  have hder : deregister (safe_close c s).reg c = ((safe_close c s).reg, none) :=
    deregister_absent _ c hfr
  refine ⟨?_, ?_, ?_, ?_⟩
  · rw [handshake_failure_run, hcf_reg, hder, safe_close_reg]
  · exact safe_close_closed_self c _
  · rw [handshake_failure_run, hcf_getQ_self, safe_close_queues]
  · intro c' hm hne
    simp only [handshake_failure_run, handle_client_finally, safe_close_queues,
      enq_sentinel_queues]
    rw [getQ_enqQ_ne c c' none _ hne]
    rw [broadcast_getQ_target _ (some c) _ c'
      (by rw [remove_client_reg, hder]; exact hnd)
      (by rw [remove_client_reg, hder]; exact hm)
      (fun hEq => hne (Option.some.inj hEq).symm)]
    rw [remove_client_queues, safe_close_queues]
    rw [hder]
    rfl

/-- Witness for C3 amended at a concrete state. -/
theorem handshake_failure_no_registration_witness :
    ((handshake_failure_run 3
      { reg := [(2, ⟨"Leo".data, 0⟩)], queues := [(2, [])],
        shuttingDown := false, listenerClosed := false, closed := [] }).reg
      = [(2, ⟨"Leo".data, 0⟩)])
    ∧ getQ (handshake_failure_run 3
      { reg := [(2, ⟨"Leo".data, 0⟩)], queues := [(2, [])],
        shuttingDown := false, listenerClosed := false, closed := [] }).queues 2
      = [some (leave_notice ("Desconocido".data))] :=
  ⟨(handshake_failure_no_registration
      { reg := [(2, ⟨"Leo".data, 0⟩)], queues := [(2, [])],
        shuttingDown := false, listenerClosed := false, closed := [] }
      3 (by decide) (by decide)).1,
   ((handshake_failure_no_registration
      { reg := [(2, ⟨"Leo".data, 0⟩)], queues := [(2, [])],
        shuttingDown := false, listenerClosed := false, closed := [] }
      3 (by decide) (by decide)).2.2.2 2 (by decide) (by decide)).trans (by decide)⟩

/-- Counterexample for C5: during shutdown, main puts the close sentinel
into client 1's queue while client 1 is still a key of the clients dict
(main only clears the dict at the very end), so a concurrent broadcast
from client 2 still targets client 1 and appends an ordinary payload
after the sentinel. -/
theorem shutdown_sentinel_then_broadcast_cex :
    (none ∈ getQ (shutdown_client_step
      { reg := [(1, ⟨"Ana".data, 0⟩), (2, ⟨"Leo".data, 0⟩)], queues := [(1, []), (2, [])],
        shuttingDown := true, listenerClosed := false, closed := [] } 1).queues 1)
    ∧ getQ (broadcast ("Leo: hola\n".data) (some 2) (shutdown_client_step
      { reg := [(1, ⟨"Ana".data, 0⟩), (2, ⟨"Leo".data, 0⟩)], queues := [(1, []), (2, [])],
        shuttingDown := true, listenerClosed := false, closed := [] } 1)).queues 1
      = [none, some ("Leo: hola\n".data)] := by
  decide

/-- C5 amended: in the per-client cleanup path of handle_client the
claim holds — the client is removed from the dict before its sentinel is
queued, the cleanup appends exactly the sentinel to that queue, and no
later broadcast call appends anything further to it (broadcast only
targets dict members). In the shutdown path of main, however, the
sentinel is enqueued while the client is still registered, so a
concurrent broadcast may append an ordinary payload after the sentinel
(see the counterexample). -/
theorem cleanup_sentinel_no_further_broadcast (s : ServerState) (c : Conn)
    (nm : Option (List Char)) (ops : List (Payload × Option Conn))
    (hnd : (s.reg.map Prod.fst).Nodup) :
    (getQ (handle_client_finally c nm s).queues c = getQ s.queues c ++ [none])
    ∧ (c ∉ (handle_client_finally c nm s).reg.map Prod.fst)
    ∧ (getQ (apply_broadcasts ops (handle_client_finally c nm s)).queues c
        = getQ (handle_client_finally c nm s).queues c) := by
  have h2 : c ∉ (handle_client_finally c nm s).reg.map Prod.fst := by
    rw [hcf_reg]
    exact deregister_not_mem_self s.reg c hnd
  exact ⟨hcf_getQ_self c nm s, h2, apply_broadcasts_getQ_unreg ops _ c h2⟩

/-- Witness for C5 amended: after the per-client cleanup of client 1,
its queue holds exactly the sentinel and a later broadcast from client 2
leaves it untouched. -/
theorem cleanup_sentinel_no_further_broadcast_witness :
    (getQ (handle_client_finally 1 none
      { reg := [(1, ⟨"Ana".data, 0⟩), (2, ⟨"Leo".data, 0⟩)], queues := [(1, []), (2, [])],
        shuttingDown := false, listenerClosed := false, closed := [] }).queues 1
      = [none])
    ∧ (getQ (apply_broadcasts [(("hi\n".data), some 2)] (handle_client_finally 1 none
      { reg := [(1, ⟨"Ana".data, 0⟩), (2, ⟨"Leo".data, 0⟩)], queues := [(1, []), (2, [])],
        shuttingDown := false, listenerClosed := false, closed := [] })).queues 1
      = getQ (handle_client_finally 1 none
      { reg := [(1, ⟨"Ana".data, 0⟩), (2, ⟨"Leo".data, 0⟩)], queues := [(1, []), (2, [])],
        shuttingDown := false, listenerClosed := false, closed := [] }).queues 1) :=
  ⟨((cleanup_sentinel_no_further_broadcast
      { reg := [(1, ⟨"Ana".data, 0⟩), (2, ⟨"Leo".data, 0⟩)], queues := [(1, []), (2, [])],
        shuttingDown := false, listenerClosed := false, closed := [] }
      1 none [(("hi\n".data), some 2)] (by decide)).1).trans (by decide),
   (cleanup_sentinel_no_further_broadcast
      { reg := [(1, ⟨"Ana".data, 0⟩), (2, ⟨"Leo".data, 0⟩)], queues := [(1, []), (2, [])],
        shuttingDown := false, listenerClosed := false, closed := [] }
      1 none [(("hi\n".data), some 2)] (by decide)).2.2⟩

theorem sublist_pair_flatMap (c : Conn) (ts : List Conn) (h : c ∈ ts) :
    List.Sublist [SEvent.sentEnq c, SEvent.closeConn c]
      (ts.flatMap fun x => [SEvent.sentEnq x, SEvent.closeConn x]) := by
  induction ts with
  | nil => cases h
  | cons t rest ih =>
    rw [List.flatMap_cons]
    rcases List.mem_cons.mp h with he | hm
    · subst he
      exact List.sublist_append_left _ _
    · exact List.Sublist.trans (ih hm) (List.sublist_append_right _ _)

/-- C8: the shutdown sequence of main enqueues a close sentinel on the
queue of every connection in the registry snapshot and closes that
connection, with the sentinel preceding its close and both preceding
the listener close, which precedes the bounded thread joins and the
registry clear; the final registry is empty and an accept attempt on a
closed listener yields no connection. -/
theorem main_shutdown_sequence (s : ServerState) (hnd : (s.reg.map Prod.fst).Nodup) :
    ((main_shutdown s).1.reg = [])
    ∧ ((main_shutdown s).1.listenerClosed = true)
    ∧ (∀ c, c ∈ s.reg.map Prod.fst →
        getQ (main_shutdown s).1.queues c = getQ s.queues c ++ [none]
        ∧ c ∈ (main_shutdown s).1.closed
        ∧ List.Sublist [SEvent.sentEnq c, SEvent.closeConn c, SEvent.closeListener,
            SEvent.joinAll, SEvent.clearRegistry] (main_shutdown s).2)
    ∧ (∀ (st : ServerState) (c : Conn), st.listenerClosed = true →
        accept_step st c = none) := by
  refine ⟨rfl, rfl, ?_, ?_⟩
  · intro c hm
    refine ⟨?_, ?_, ?_⟩
    · show getQ ((s.reg.map Prod.fst).foldl shutdown_client_step s).queues c
        = getQ s.queues c ++ [none]
      exact foldl_scs_getQ_mem _ s c hnd hm (fun x hx => hx)
    · show c ∈ ((s.reg.map Prod.fst).foldl shutdown_client_step s).closed
      exact foldl_scs_closed_mem _ s c hm
    · exact List.Sublist.append (sublist_pair_flatMap c _ hm) (List.Sublist.refl _)
  · intro st c h
    simp [accept_step, h]

/-- Witness for C8 at a concrete two-client state. -/
theorem main_shutdown_sequence_witness :
    ((main_shutdown
      { reg := [(1, ⟨"Ana".data, 0⟩), (2, ⟨"Leo".data, 0⟩)], queues := [(1, []), (2, [])],
        shuttingDown := true, listenerClosed := false, closed := [] }).1.reg = [])
    ∧ getQ (main_shutdown
      { reg := [(1, ⟨"Ana".data, 0⟩), (2, ⟨"Leo".data, 0⟩)], queues := [(1, []), (2, [])],
        shuttingDown := true, listenerClosed := false, closed := [] }).1.queues 1
      = [none]
    ∧ accept_step
      { reg := [], queues := [], shuttingDown := true, listenerClosed := true, closed := [] }
      7 = none :=
  ⟨(main_shutdown_sequence
      { reg := [(1, ⟨"Ana".data, 0⟩), (2, ⟨"Leo".data, 0⟩)], queues := [(1, []), (2, [])],
        shuttingDown := true, listenerClosed := false, closed := [] } (by decide)).1,
   (((main_shutdown_sequence
      { reg := [(1, ⟨"Ana".data, 0⟩), (2, ⟨"Leo".data, 0⟩)], queues := [(1, []), (2, [])],
        shuttingDown := true, listenerClosed := false, closed := [] } (by decide)).2.2.1
      1 (by decide)).1).trans (by decide),
   (main_shutdown_sequence
      { reg := [(1, ⟨"Ana".data, 0⟩), (2, ⟨"Leo".data, 0⟩)], queues := [(1, []), (2, [])],
        shuttingDown := true, listenerClosed := false, closed := [] } (by decide)).2.2.2
      { reg := [], queues := [], shuttingDown := true, listenerClosed := true, closed := [] }
      7 rfl⟩

/-- C9: the shutdown signal is monotone — no server operation ever
lowers it once set — and shutdown is idempotent: setting the signal
twice equals setting it once, and safe_close of an already-closed
socket is a no-op that does not fault. -/
theorem shutdown_signal_monotone_idempotent :
    (∀ s s' : ServerState, Step s s' → s.shuttingDown = true → s'.shuttingDown = true)
    ∧ (∀ s : ServerState, setShutdown (setShutdown s) = setShutdown s)
    ∧ (∀ (c : Conn) (s : ServerState), safe_close c (safe_close c s) = safe_close c s) := by
  refine ⟨?_, fun s => rfl, ?_⟩
  · intro s s' hstep h
    cases hstep with
    | bcast p e => rw [broadcast_shutting]; exact h
    | handshake c a d => rw [handle_handshake_shutting]; exact h
    | chat c nm t => exact h
    | cleanup c nm => exact h
    | hsFail c => exact h
    | shutdownClient c => rw [scs_shutting]; exact h
    | shutdownAll => rw [main_shutdown_shutting]; exact h
    | setSig => rfl
    | close c => exact h
    | senderGet c => exact h
  · intro c s
    have hmem : c ∈ (safe_close c s).closed := safe_close_closed_self c s
    show { safe_close c s with closed := if c ∈ (safe_close c s).closed
            then (safe_close c s).closed else (safe_close c s).closed ++ [c] }
          = safe_close c s
    rw [if_pos hmem]

/-- Witness for C9: a broadcast step preserves a raised signal, and a
double signal set is one set. -/
theorem shutdown_signal_monotone_idempotent_witness :
    (broadcast ("x\n".data) none
      { reg := [], queues := [], shuttingDown := true, listenerClosed := false,
        closed := [] }).shuttingDown = true
    ∧ setShutdown (setShutdown
      { reg := [], queues := [], shuttingDown := false, listenerClosed := false,
        closed := [] })
      = setShutdown
      { reg := [], queues := [], shuttingDown := false, listenerClosed := false,
        closed := [] } :=
  ⟨shutdown_signal_monotone_idempotent.1
      { reg := [], queues := [], shuttingDown := true, listenerClosed := false, closed := [] }
      _ (Step.bcast ("x\n".data) none) rfl,
   shutdown_signal_monotone_idempotent.2.1
      { reg := [], queues := [], shuttingDown := false, listenerClosed := false,
        closed := [] }⟩

end ChatServer
